import Mathlib

/-!  Verification of the job-analysis dashboard's data core (src/app.py):
salary normalization (`clean_monthly_salary`), table loading with
column-alias renaming and salary filtering (`load_data`), and keyword
frequency counting over a text corpus (`count_keywords`).

Text is modelled as lists of Unicode codepoints (`List Nat`); spreadsheet
cells are rationals, NaN, or strings; a table is a header row of column
names plus data rows.  Operations that can raise a Python exception are
modelled with `Except`, and `load_data`'s try/except boundary catches
every such error and degrades to the empty table, exactly as the source
does. -/

/-- Codepoints of a string literal, as Python sees text. -/
def S (s : String) : List Nat := s.toList.map Char.toNat

/-- One codepoint of Python `str.lower`: ASCII uppercase letters move down
32, everything else is untouched. -/
def asciiLower (n : Nat) : Nat := if 65 ≤ n ∧ n ≤ 90 then n + 32 else n

/-- One codepoint of Python `str.upper`: ASCII lowercase letters move up
32, everything else is untouched. -/
def asciiUpper (n : Nat) : Nat := if 97 ≤ n ∧ n ≤ 122 then n - 32 else n

/-- Python `str.lower` over a whole string. -/
def pyLower (s : List Nat) : List Nat := s.map asciiLower

/-- Python `str.upper` over a whole string. -/
def pyUpper (s : List Nat) : List Nat := s.map asciiUpper

/-- Python `str.capitalize`: first character uppercased, the rest
lowercased. -/
def pyCapitalize : List Nat → List Nat
  | [] => []
  | c :: rest => asciiUpper c :: rest.map asciiLower

/-- Scanner behind `re.findall` with an escaped (hence literal) non-empty
pattern: walk the text left to right; `skip` counts characters still to be
consumed by the previous match.  At an unconsumed position, a match counts
one occurrence and consumes `pat.length` characters, giving the
non-overlapping leftmost-match count. -/
def goCount (pat : List Nat) : Nat → List Nat → Nat
  | _, [] => 0
  | Nat.succ k, _ :: rest => goCount pat k rest
  | 0, c :: rest =>
    if pat.isPrefixOf (c :: rest) then 1 + goCount pat (pat.length - 1) rest
    else goCount pat 0 rest

/-- `len(re.findall(re.escape(pat), text))`: the number of non-overlapping
occurrences of the literal `pat` in `text`.  An empty pattern matches once
at every position, including the end (Python returns `len(text) + 1`
matches). -/
def countOcc (pat text : List Nat) : Nat :=
  if pat.isEmpty then text.length + 1 else goCount pat 0 text

/-- `len(re.findall(re.escape(pat), text, re.IGNORECASE))`:
case-insensitive literal occurrence count. -/
def countCI (pat text : List Nat) : Nat := countOcc (pyLower pat) (pyLower text)

/-- The fixed keep-uppercase set of `count_keywords`
(`["HTML", "CSS", "SQL"]` in the source). -/
def KEEP_UPPER : List (List Nat) := [S "HTML", S "CSS", S "SQL"]

/-- The fixed capitalized-word set of `count_keywords`
(`["Java", "Python"]` in the source). -/
def CAP_WORDS : List (List Nat) := [S "Java", S "Python"]

/-- Display-name canonicalization of one catalog entry, from the body of
`count_keywords`: full uppercase if the uppercased entry is in the
keep-uppercase set, else title case if the capitalized entry is a known
capitalized word, else the entry verbatim. -/
def displayName (w : List Nat) : List Nat :=
  if pyUpper w ∈ KEEP_UPPER then pyUpper w
  else if pyCapitalize w ∈ CAP_WORDS then pyCapitalize w
  else w

/-- Python `dict` assignment `d[k] = v`: overwrite in place if the key is
present, otherwise append at the end (insertion order is preserved). -/
def dictInsert (m : List (List Nat × Nat)) (k : List Nat) (v : Nat) :
    List (List Nat × Nat) :=
  if m.any (fun p => p.1 = k) then m.map (fun p => if p.1 = k then (k, v) else p)
  else m ++ [(k, v)]

/-- Python `dict` lookup: value of the key if present. -/
def dictLookup (m : List (List Nat × Nat)) (k : List Nat) : Option Nat :=
  (m.find? (fun p => p.1 = k)).map (fun p => p.2)

/-- Loop body of `count_keywords`: count the case-insensitive literal
occurrences of `word`; on a positive count, store them under the
canonical display name. -/
def kwStep (text : List Nat) (counts : List (List Nat × Nat)) (word : List Nat) :
    List (List Nat × Nat) :=
  if 0 < countCI word text then dictInsert counts (displayName word) (countCI word text)
  else counts

/-- `count_keywords(text, keyword_list)` from src/app.py: fold the loop
body over the catalog starting from the empty dict. -/
def count_keywords (text : List Nat) (keyword_list : List (List Nat)) :
    List (List Nat × Nat) :=
  keyword_list.foldl (kwStep text) []

/-- A spreadsheet cell: a number, a missing value (NaN), or a string. -/
inductive Cell where
  | num (q : ℚ)
  | nan
  | strv (s : List Nat)
  deriving DecidableEq

/-- The Python exceptions the loader can hit while computing salaries:
the ambiguous truth value of a multi-element Series (duplicate columns
after renaming) and the type error of comparing a string with `0`. -/
inductive PyErr where
  | ambiguousTruthValue
  | typeError
  deriving DecidableEq

/-- A DataFrame: column names plus data rows (row order preserved). -/
structure Table where
  cols : List String
  rows : List (List Cell)
  deriving DecidableEq

/-- All cells of a row that sit under a given column label; several when
renaming produced duplicate columns. -/
def getAll (r : List (String × Cell)) (k : String) : List Cell :=
  (r.filter (fun p => p.1 = k)).map (fun p => p.2)

/-- The value logic of `clean_monthly_salary` once a scalar was read:
NaN gives 0, a string raises at the `<= 0` comparison, a number gives 0
when non-positive, is divided by 1000 when above 1000, and is kept as-is
otherwise. -/
def cleanVal : Cell → Except PyErr ℚ
  | Cell.nan => Except.ok 0
  | Cell.strv _ => Except.error PyErr.typeError
  | Cell.num v => Except.ok (if v ≤ 0 then 0 else if 1000 < v then v / 1000 else v)

/-- `clean_monthly_salary(row)` from src/app.py: `row.get("salary_min", 0)`
yields the default 0 when the label is absent, the cell when the label is
unique, and a multi-element Series (an ambiguous-truth-value error at the
`pd.isna` test) when the label occurs several times. -/
def clean_monthly_salary (row : List (String × Cell)) : Except PyErr ℚ :=
  match getAll row "salary_min" with
  | [] => cleanVal (Cell.num 0)
  | [v] => cleanVal v
  | _ :: _ :: _ => Except.error PyErr.ambiguousTruthValue

/-- The `rename_dict` of `load_data`, applied to one column name.  Pandas
`rename` maps every column through the dict simultaneously; names not in
the dict (including the canonical ones) are untouched. -/
def renameCol (c : String) : String :=
  if c = "salarymin" ∨ c = "salaryMin" ∨ c = "avg_annual_K" then "salary_min"
  else if c = "job_detail" ∨ c = "description" then "demand"
  else c

/-- `df.rename(columns=rename_dict)`: rename every column, keep the rows. -/
def renameTable (t : Table) : Table := Table.mk (t.cols.map renameCol) t.rows

/-- `pd.DataFrame()`: the empty table. -/
def emptyTable : Table := Table.mk [] []

/-- `df.apply(clean_monthly_salary, axis=1)`: the salary of every row, or
the first exception raised. -/
def salaryKs (cols : List String) : List (List Cell) → Except PyErr (List ℚ)
  | [] => Except.ok []
  | row :: rest =>
    match clean_monthly_salary (cols.zip row) with
    | Except.error e => Except.error e
    | Except.ok k =>
      match salaryKs cols rest with
      | Except.error e => Except.error e
      | Except.ok ks => Except.ok (k :: ks)

/-- `load_data(file)` from src/app.py.  `none` stands for a source
`pd.read_excel` cannot parse (the raised exception is caught).  Columns
are renamed; without a `salary_min` column the empty table is returned;
otherwise every row gets its computed `salary_k` appended and only rows
with `salary_k > 0` are kept.  Any exception inside the `try` block
degrades to the empty table. -/
def load_data : Option Table → Table
  | none => emptyTable
  | some df =>
    let df2 := renameTable df
    if "salary_min" ∈ df2.cols then
      match salaryKs df2.cols df2.rows with
      | Except.error _ => emptyTable
      | Except.ok ks =>
        Table.mk (df2.cols ++ ["salary_k"])
          (((df2.rows.zip ks).filter (fun p => decide (0 < p.2))).map
            (fun p => p.1 ++ [Cell.num p.2]))
    else emptyTable

/-! ## Salary normalization: C1, C10 -/

/-- C1: for every record, `clean_monthly_salary` returns `v / 1000` when
the canonical minimum-salary value `v` is greater than 1000, `v` itself
when `0 < v ≤ 1000`, and `0` when the value is missing, NaN, or
non-positive. -/
theorem c1_clean_monthly_salary (row : List (String × Cell)) (v : ℚ) :
    (getAll row "salary_min" = [Cell.num v] →
       ((1000 < v → clean_monthly_salary row = Except.ok (v / 1000)) ∧
        (0 < v → v ≤ 1000 → clean_monthly_salary row = Except.ok v) ∧
        (v ≤ 0 → clean_monthly_salary row = Except.ok 0))) ∧
    (getAll row "salary_min" = [Cell.nan] → clean_monthly_salary row = Except.ok 0) ∧
    (getAll row "salary_min" = [] → clean_monthly_salary row = Except.ok 0) := by
  refine ⟨fun hv => ⟨fun h1 => ?_, fun h0 h1 => ?_, fun h0 => ?_⟩,
    fun hnan => ?_, fun hmiss => ?_⟩
  · have hn : ¬ v ≤ 0 := by linarith
    simp [clean_monthly_salary, hv, cleanVal, hn, h1]
  · have hn : ¬ v ≤ 0 := by linarith
    have hn2 : ¬ 1000 < v := by linarith
    simp [clean_monthly_salary, hv, cleanVal, hn, hn2]
  · simp [clean_monthly_salary, hv, cleanVal, h0]
  · simp [clean_monthly_salary, hnan, cleanVal]
  · simp [clean_monthly_salary, hmiss, cleanVal]

/-- Witness for C1 at a concrete record: a raw-currency 2000 becomes 2k. -/
theorem c1_witness :
    clean_monthly_salary [("salary_min", Cell.num 2000)] = Except.ok 2 := by
  have h := ((c1_clean_monthly_salary [("salary_min", Cell.num 2000)] 2000).1
    (by decide)).1 (by norm_num)
  have h2 : (2000 : ℚ) / 1000 = 2 := by norm_num
  rw [h2] at h
  exact h

/-- C10: `clean_monthly_salary` reads only the canonical `salary_min`
cells of a record; two rows agreeing there (both present, both missing,
or both duplicated) get the same result, whatever the other fields are. -/
theorem c10_noninterference (r1 r2 : List (String × Cell))
    (h : getAll r1 "salary_min" = getAll r2 "salary_min") :
    clean_monthly_salary r1 = clean_monthly_salary r2 := by
  unfold clean_monthly_salary
  rw [h]

/-- Witness for C10: two records differing in every other field. -/
theorem c10_witness :
    clean_monthly_salary
        [("keyword", Cell.strv (S "java")), ("title", Cell.strv (S "dev")),
         ("salary_min", Cell.num 20)] =
      clean_monthly_salary
        [("keyword", Cell.strv (S "go")), ("company", Cell.strv (S "acme")),
         ("salary_min", Cell.num 20), ("demand", Cell.strv (S "text"))] :=
  c10_noninterference _ _ (by decide)

/-! ## Loader boundary: C4, C3, C7 -/

/-- C4: the Loader never lets an exception out.  An unparseable source
(`none`) yields the empty table; a source with no `salary_min` column
after renaming yields the empty table; and any exception raised while
computing salaries (duplicate columns, string compared with 0) also
yields the empty table. -/
theorem c4_load_data_total :
    load_data none = emptyTable ∧
    (∀ t : Table, "salary_min" ∉ (renameTable t).cols → load_data (some t) = emptyTable) ∧
    (∀ (t : Table) (e : PyErr),
       salaryKs (renameTable t).cols (renameTable t).rows = Except.error e →
       load_data (some t) = emptyTable) := by
  refine ⟨rfl, fun t h => ?_, fun t e h => ?_⟩
  · simp [load_data, h]
  · simp [load_data, h]

/-- Witness for C4: a source with no salary column, and one whose salary
cells are strings (a type error inside the try block). -/
theorem c4_witness :
    load_data (some (Table.mk ["title"] [[Cell.nan]])) = emptyTable ∧
    load_data (some (Table.mk ["salary_min"] [[Cell.strv (S "20-30")]])) = emptyTable :=
  ⟨c4_load_data_total.2.1 _ (by decide),
   c4_load_data_total.2.2 _ PyErr.typeError (by rfl)⟩

/-- Counterexample to C3: a source with no minimum-salary alias but a
display string "20-30" loads to the empty table; no record with the
parsed mean 25 (or any record at all) is produced, so no alternative
salary parser runs. -/
theorem c3_counterexample :
    (Table.mk ["keyword", "salary_display"]
        [[Cell.strv (S "java"), Cell.strv (S "20-30")]]).rows.length = 1 ∧
    load_data (some (Table.mk ["keyword", "salary_display"]
        [[Cell.strv (S "java"), Cell.strv (S "20-30")]])) = emptyTable := by
  exact ⟨rfl, by decide⟩

/-- C3 (amended): when no minimum-salary column exists after alias
reconciliation, `load_data` attempts no alternative parsing of display
strings and returns the empty table. -/
theorem c3_no_salary_fallback (t : Table)
    (h : "salary_min" ∉ (renameTable t).cols) :
    load_data (some t) = emptyTable := by
  simp [load_data, h]

/-- Witness for C3's amended statement. -/
theorem c3_witness :
    load_data (some (Table.mk ["keyword", "salary_display"]
        [[Cell.strv (S "python"), Cell.strv (S "30-40")]])) = emptyTable :=
  c3_no_salary_fallback _ (by decide)

/-- C7: a source whose salary column is named `salaryMin` loads exactly
like one whose salary column is named `salary_min`, for identical rows
and identical surrounding columns. -/
theorem c7_alias_equivalence (pre suf : List String) (rows : List (List Cell)) :
    load_data (some (Table.mk (pre ++ "salaryMin" :: suf) rows)) =
      load_data (some (Table.mk (pre ++ "salary_min" :: suf) rows)) := by
  have e1 : renameCol "salaryMin" = "salary_min" := by decide
  have e2 : renameCol "salary_min" = "salary_min" := by decide
  have h : renameTable (Table.mk (pre ++ "salaryMin" :: suf) rows) =
      renameTable (Table.mk (pre ++ "salary_min" :: suf) rows) := by
    simp [renameTable, e1, e2]
  simp only [load_data]
  rw [h]

/-! ## Loader filtering: C2; alias precedence: C6 -/

/-- Counterexample to C2: a record whose `salary_min` is 0 is dropped by
`load_data` itself — the output table no longer carries it, so filtering
to `salary_k > 0` is not left to callers. -/
theorem c2_counterexample :
    (Table.mk ["salary_min"] [[Cell.num 0]]).rows.length = 1 ∧
    (load_data (some (Table.mk ["salary_min"] [[Cell.num 0]]))).rows.length = 0 := by
  exact ⟨rfl, by decide⟩

/-- C2 (amended): `load_data` computes `salary_k` for every record and
then itself keeps only the records with `salary_k > 0`: every row of its
output ends in a positive appended `salary_k` cell. -/
theorem c2_loader_filters (t : Table) (ks : List ℚ) (r : List Cell)
    (hsal : "salary_min" ∈ (renameTable t).cols)
    (hok : salaryKs (renameTable t).cols (renameTable t).rows = Except.ok ks)
    (hr : r ∈ (load_data (some t)).rows) :
    ∃ (r0 : List Cell) (k : ℚ), 0 < k ∧ r = r0 ++ [Cell.num k] := by
  have hrows : (load_data (some t)).rows =
      (((renameTable t).rows.zip ks).filter (fun p => decide (0 < p.2))).map
        (fun p => p.1 ++ [Cell.num p.2]) := by
    simp [load_data, hsal, hok]
  rw [hrows] at hr
  rcases List.mem_map.mp hr with ⟨p, hp, hpr⟩
  have hfil := List.mem_filter.mp hp
  exact ⟨p.1, p.2, of_decide_eq_true hfil.2, hpr.symm⟩

/-- Witness for C2's amended statement: of two records with salaries 5
and 0, only the first survives, carrying `salary_k = 5 > 0`. -/
theorem c2_witness :
    ∃ (r0 : List Cell) (k : ℚ), 0 < k ∧
      ([Cell.num 5, Cell.num 5] : List Cell) = r0 ++ [Cell.num k] :=
  c2_loader_filters (Table.mk ["salary_min"] [[Cell.num 5], [Cell.num 0]]) [5, 0]
    [Cell.num 5, Cell.num 5] (by decide) (by rfl) (by decide)

/-- Counterexample to C6: a source with two salary aliases (`salarymin`
and `salaryMin`).  First-match-wins precedence would keep the record with
`salary_k = 10`; instead both columns are renamed to `salary_min` at once
and the loader degrades to the empty table. -/
theorem c6_counterexample :
    (Table.mk ["salarymin", "salaryMin"] [[Cell.num 10, Cell.num 20]]).rows.length = 1 ∧
    load_data (some (Table.mk ["salarymin", "salaryMin"]
        [[Cell.num 10, Cell.num 20]])) = emptyTable := by
  exact ⟨rfl, by decide⟩

/-- C6 (amended): the rename map is applied to all columns
simultaneously, with no precedence; a source holding more than one salary
alias ends up with duplicate `salary_min` columns, the per-row salary
lookup raises, and `load_data` returns the empty table. -/
theorem c6_duplicate_aliases (t : Table) (r : List Cell) (rest : List (List Cell))
    (hrows : t.rows = r :: rest)
    (hdup : 2 ≤ (getAll ((renameTable t).cols.zip r) "salary_min").length) :
    load_data (some t) = emptyTable := by
  have hclean : clean_monthly_salary ((renameTable t).cols.zip r) =
      Except.error PyErr.ambiguousTruthValue := by
    unfold clean_monthly_salary
    cases hga : getAll ((renameTable t).cols.zip r) "salary_min" with
    | nil => rw [hga] at hdup; simp at hdup
    | cons a tail =>
      cases tail with
      | nil => rw [hga] at hdup; simp at hdup
      | cons b l => rfl
  have herr : salaryKs (renameTable t).cols (renameTable t).rows =
      Except.error PyErr.ambiguousTruthValue := by
    have hrw : (renameTable t).rows = r :: rest := hrows
    rw [hrw]
    simp only [salaryKs]
    rw [hclean]
  simp [load_data, herr]

/-- Witness for C6's amended statement. -/
theorem c6_witness :
    load_data (some (Table.mk ["salarymin", "salaryMin"]
        [[Cell.num 10, Cell.num 20]])) = emptyTable :=
  c6_duplicate_aliases _ [Cell.num 10, Cell.num 20] [] (by rfl) (by decide)


/-! ## Dict lemmas for the keyword counter -/

theorem dictLookup_map_overwrite (m : List (List Nat × Nat)) (q k : List Nat) (v : Nat)
    (hqk : q ≠ k) :
    dictLookup (m.map (fun p => if p.1 = q then (q, v) else p)) k = dictLookup m k := by
  induction m with
  | nil => rfl
  | cons p rest ih =>
    by_cases hp : p.1 = q
    · have hpk : ¬ p.1 = k := by rw [hp]; exact hqk
      simp only [List.map_cons, if_pos hp, dictLookup, List.find?]
      simp only [hqk, hpk, decide_False]
      exact ih
    · simp only [List.map_cons, if_neg hp, dictLookup, List.find?]
      by_cases hk : p.1 = k
      · simp [hk]
      · simp only [hk, decide_False]
        exact ih

theorem dictLookup_map_overwrite_self (m : List (List Nat × Nat)) (q : List Nat) (v : Nat)
    (hq : m.any (fun p => decide (p.1 = q)) = true) :
    dictLookup (m.map (fun p => if p.1 = q then (q, v) else p)) q = some v := by
  induction m with
  | nil => simp at hq
  | cons p rest ih =>
    by_cases hp : p.1 = q
    · simp [List.map_cons, if_pos hp, dictLookup, List.find?]
    · simp only [List.any_cons, hp, decide_False, Bool.false_or] at hq
      simp only [List.map_cons, if_neg hp, dictLookup, List.find?]
      simp only [hp, decide_False]
      exact ih hq

theorem dictLookup_append_self (m : List (List Nat × Nat)) (q : List Nat) (v : Nat)
    (hq : m.any (fun p => decide (p.1 = q)) = false) :
    dictLookup (m ++ [(q, v)]) q = some v := by
  induction m with
  | nil => simp [dictLookup, List.find?]
  | cons p rest ih =>
    simp only [List.any_cons, Bool.or_eq_false_iff] at hq
    have hp : ¬ p.1 = q := by
      intro h
      rw [decide_eq_true h] at hq
      exact absurd hq.1 (by decide)
    simp only [List.cons_append, dictLookup, List.find?, hp, decide_False]
    exact ih hq.2

theorem dictLookup_append_ne (m : List (List Nat × Nat)) (q k : List Nat) (v : Nat)
    (hqk : q ≠ k) :
    dictLookup (m ++ [(q, v)]) k = dictLookup m k := by
  induction m with
  | nil => simp [dictLookup, List.find?, hqk]
  | cons p rest ih =>
    by_cases hk : p.1 = k
    · simp [dictLookup, List.find?, hk]
    · simp only [List.cons_append, dictLookup, List.find?, hk, decide_False]
      exact ih

theorem dictLookup_insert_self (m : List (List Nat × Nat)) (k : List Nat) (v : Nat) :
    dictLookup (dictInsert m k v) k = some v := by
  unfold dictInsert
  by_cases hq : m.any (fun p => decide (p.1 = k)) = true
  · rw [if_pos hq]
    exact dictLookup_map_overwrite_self m k v hq
  · rw [if_neg hq]
    exact dictLookup_append_self m k v (Bool.eq_false_iff.mpr hq)

theorem dictLookup_insert_ne (m : List (List Nat × Nat)) (q k : List Nat) (v : Nat)
    (hqk : q ≠ k) : dictLookup (dictInsert m q v) k = dictLookup m k := by
  unfold dictInsert
  by_cases hq : m.any (fun p => decide (p.1 = q)) = true
  · rw [if_pos hq]
    exact dictLookup_map_overwrite m q k v hqk
  · rw [if_neg hq]
    exact dictLookup_append_ne m q k v hqk

/-! ## Case-mapping lemmas -/

theorem asciiLower_asciiUpper (n : Nat) : asciiLower (asciiUpper n) = asciiLower n := by
  unfold asciiLower asciiUpper
  split_ifs <;> omega

theorem asciiLower_asciiLower (n : Nat) : asciiLower (asciiLower n) = asciiLower n := by
  unfold asciiLower
  split_ifs <;> omega

theorem asciiUpper_asciiUpper (n : Nat) : asciiUpper (asciiUpper n) = asciiUpper n := by
  unfold asciiUpper
  split_ifs <;> omega

theorem pyLower_pyUpper (w : List Nat) : pyLower (pyUpper w) = pyLower w := by
  induction w with
  | nil => rfl
  | cons c rest ih =>
    show asciiLower (asciiUpper c) :: pyLower (pyUpper rest) = asciiLower c :: pyLower rest
    rw [asciiLower_asciiUpper, ih]

theorem pyLower_pyLower (w : List Nat) : pyLower (pyLower w) = pyLower w := by
  induction w with
  | nil => rfl
  | cons c rest ih =>
    show asciiLower (asciiLower c) :: pyLower (pyLower rest) = asciiLower c :: pyLower rest
    rw [asciiLower_asciiLower, ih]

theorem pyUpper_pyUpper (w : List Nat) : pyUpper (pyUpper w) = pyUpper w := by
  induction w with
  | nil => rfl
  | cons c rest ih =>
    show asciiUpper (asciiUpper c) :: pyUpper (pyUpper rest) = asciiUpper c :: pyUpper rest
    rw [asciiUpper_asciiUpper, ih]

theorem pyLower_pyCapitalize (w : List Nat) : pyLower (pyCapitalize w) = pyLower w := by
  cases w with
  | nil => rfl
  | cons c rest =>
    show asciiLower (asciiUpper c) :: pyLower (pyLower rest) = asciiLower c :: pyLower rest
    rw [asciiLower_asciiUpper, pyLower_pyLower]

theorem pyCapitalize_pyCapitalize (w : List Nat) :
    pyCapitalize (pyCapitalize w) = pyCapitalize w := by
  cases w with
  | nil => rfl
  | cons c rest =>
    show asciiUpper (asciiUpper c) :: pyLower (pyLower rest) = asciiUpper c :: pyLower rest
    rw [asciiUpper_asciiUpper, pyLower_pyLower]

/-- Two catalog entries that canonicalize to the same display name agree
after lowercasing, hence have the same case-insensitive count in any
corpus.  (The keep-uppercase and capitalized-word sets are disjoint and
fixed under their own transformation.) -/
theorem displayName_inj (a b : List Nat) (h : displayName a = displayName b) :
    pyLower a = pyLower b := by
  have hK : ∀ d ∈ KEEP_UPPER, d ∉ CAP_WORDS := by decide
  unfold displayName at h
  by_cases ha1 : pyUpper a ∈ KEEP_UPPER
  · rw [if_pos ha1] at h
    by_cases hb1 : pyUpper b ∈ KEEP_UPPER
    · rw [if_pos hb1] at h
      calc pyLower a = pyLower (pyUpper a) := (pyLower_pyUpper a).symm
        _ = pyLower (pyUpper b) := by rw [h]
        _ = pyLower b := pyLower_pyUpper b
    · rw [if_neg hb1] at h
      by_cases hb2 : pyCapitalize b ∈ CAP_WORDS
      · rw [if_pos hb2] at h
        exact absurd (by rw [h]; exact hb2) (hK _ ha1)
      · rw [if_neg hb2] at h
        exact absurd (by rw [← h, pyUpper_pyUpper]; exact ha1) hb1
  · rw [if_neg ha1] at h
    by_cases ha2 : pyCapitalize a ∈ CAP_WORDS
    · rw [if_pos ha2] at h
      by_cases hb1 : pyUpper b ∈ KEEP_UPPER
      · rw [if_pos hb1] at h
        exact absurd (by rw [← h]; exact ha2) (hK _ hb1)
      · rw [if_neg hb1] at h
        by_cases hb2 : pyCapitalize b ∈ CAP_WORDS
        · rw [if_pos hb2] at h
          calc pyLower a = pyLower (pyCapitalize a) := (pyLower_pyCapitalize a).symm
            _ = pyLower (pyCapitalize b) := by rw [h]
            _ = pyLower b := pyLower_pyCapitalize b
        · rw [if_neg hb2] at h
          exact absurd (by rw [← h, pyCapitalize_pyCapitalize]; exact ha2) hb2
    · rw [if_neg ha2] at h
      by_cases hb1 : pyUpper b ∈ KEEP_UPPER
      · rw [if_pos hb1] at h
        exact absurd (by rw [h, pyUpper_pyUpper]; exact hb1) ha1
      · rw [if_neg hb1] at h
        by_cases hb2 : pyCapitalize b ∈ CAP_WORDS
        · rw [if_pos hb2] at h
          exact absurd (by rw [h, pyCapitalize_pyCapitalize]; exact hb2) ha2
        · rw [if_neg hb2] at h
          rw [h]

/-- Entries with the same display name have the same case-insensitive
occurrence count in every corpus. -/
theorem countCI_eq_of_displayName_eq (text a b : List Nat)
    (h : displayName a = displayName b) : countCI a text = countCI b text := by
  unfold countCI
  rw [displayName_inj a b h]

/-! ## Keyword counting: C5, C8, C9 -/

/-- Folding the counting loop over entries none of which writes the key
`k` (wrong display name or zero count) leaves the lookup at `k`
unchanged. -/
theorem foldl_kwStep_of_ne (text k : List Nat) :
    ∀ (ws : List (List Nat)) (m : List (List Nat × Nat)),
      (∀ w ∈ ws, displayName w ≠ k ∨ countCI w text = 0) →
      dictLookup (ws.foldl (kwStep text) m) k = dictLookup m k := by
  intro ws
  induction ws with
  | nil => intro m _; rfl
  | cons w rest ih =>
    intro m hall
    rw [List.foldl_cons]
    have hw := hall w (List.mem_cons_self w rest)
    have hrest : ∀ w' ∈ rest, displayName w' ≠ k ∨ countCI w' text = 0 :=
      fun w' hm => hall w' (List.mem_cons_of_mem w hm)
    by_cases hn : 0 < countCI w text
    · have hne : displayName w ≠ k := by
        rcases hw with h | h
        · exact h
        · omega
      have hstep : kwStep text m w = dictInsert m (displayName w) (countCI w text) := by
        unfold kwStep
        rw [if_pos hn]
      rw [hstep, ih _ hrest, dictLookup_insert_ne _ _ _ _ hne]
    · have hstep : kwStep text m w = m := by
        unfold kwStep
        rw [if_neg hn]
      rw [hstep]
      exact ih _ hrest

/-- Folding the counting loop over a catalog in which every entry that
writes the key `k` writes the same positive count `n`, and at least one
entry does, makes the lookup at `k` equal `n`. -/
theorem foldl_kwStep_of_mem (text k : List Nat) (n : Nat) (hpos : 0 < n) :
    ∀ (ws : List (List Nat)) (m : List (List Nat × Nat)),
      (∀ w ∈ ws, displayName w = k → countCI w text = n) →
      (∃ w, w ∈ ws ∧ displayName w = k) →
      dictLookup (ws.foldl (kwStep text) m) k = some n := by
  intro ws
  induction ws with
  | nil =>
    intro m _ hex
    rcases hex with ⟨w, hw, _⟩
    exact absurd hw (List.not_mem_nil w)
  | cons w rest ih =>
    intro m hall hex
    rw [List.foldl_cons]
    have hrest : ∀ w' ∈ rest, displayName w' = k → countCI w' text = n :=
      fun w' hm => hall w' (List.mem_cons_of_mem w hm)
    by_cases hd : displayName w = k
    · have hcnt : countCI w text = n := hall w (List.mem_cons_self w rest) hd
      have hn : 0 < countCI w text := by omega
      have hstep : kwStep text m w = dictInsert m k n := by
        unfold kwStep
        rw [if_pos hn, hd, hcnt]
      rw [hstep]
      by_cases hex2 : ∃ w', w' ∈ rest ∧ displayName w' = k
      · exact ih _ hrest hex2
      · have hnone : ∀ w' ∈ rest, displayName w' ≠ k ∨ countCI w' text = 0 := by
          intro w' hm
          left
          intro hEq
          exact hex2 ⟨w', hm, hEq⟩
        rw [foldl_kwStep_of_ne text k rest _ hnone]
        exact dictLookup_insert_self m k n
    · rcases hex with ⟨w', hw', hdw'⟩
      rcases List.mem_cons.mp hw' with heq | hmem
      · exact absurd (heq ▸ hdw') hd
      · exact ih _ hrest ⟨w', hmem, hdw'⟩

/-- C5: for every corpus and every catalog entry, `count_keywords` maps
the entry's display name to its number of non-overlapping
case-insensitive literal occurrences in the corpus, and omits the key
when that count is zero. -/
theorem c5_count_keywords (text : List Nat) (catalog : List (List Nat))
    (w : List Nat) (hw : w ∈ catalog) :
    dictLookup (count_keywords text catalog) (displayName w) =
      if 0 < countCI w text then some (countCI w text) else none := by
  unfold count_keywords
  by_cases hn : 0 < countCI w text
  · rw [if_pos hn]
    apply foldl_kwStep_of_mem text (displayName w) (countCI w text) hn catalog []
    · intro w' _ hEq
      exact countCI_eq_of_displayName_eq text w' w hEq
    · exact ⟨w, hw, rfl⟩
  · rw [if_neg hn]
    have hzero : countCI w text = 0 := by omega
    have hall : ∀ w' ∈ catalog, displayName w' ≠ displayName w ∨ countCI w' text = 0 := by
      intro w' _
      by_cases hEq : displayName w' = displayName w
      · right
        rw [countCI_eq_of_displayName_eq text w' w hEq]
        exact hzero
      · left
        exact hEq
    rw [foldl_kwStep_of_ne text (displayName w) catalog [] hall]
    rfl

/-- Witness for C5 on the spec's escaping example: the literal phrase
"C++" is counted twice in "C++ developer needed, C++ preferred". -/
theorem c5_witness :
    dictLookup (count_keywords (S "C++ developer needed, C++ preferred") [S "C++"])
      (displayName (S "C++")) = some 2 := by
  have h := c5_count_keywords (S "C++ developer needed, C++ preferred") [S "C++"]
    (S "C++") (by decide)
  rw [h]
  decide

/-- Counterexample to C8: the keep-uppercase set of the code is only
HTML, CSS and SQL; the catalog entry "php" is reported verbatim as
"php", not as "PHP". -/
theorem c8_counterexample :
    dictLookup (count_keywords (S "php developer") [S "php"]) (S "PHP") = none ∧
    dictLookup (count_keywords (S "php developer") [S "php"]) (S "php") = some 1 := by
  exact ⟨by decide, by decide⟩

/-- C8 (amended): for an entry with a positive count, the output key is
the entry's uppercase form when that form is in the fixed keep-uppercase
set {HTML, CSS, SQL} (PHP is not in it), the capitalized form when that
is Java or Python, and the entry verbatim otherwise. -/
theorem c8_display_rules (corpus w : List Nat) (h : 0 < countCI w corpus) :
    dictLookup (count_keywords corpus [w]) (displayName w) = some (countCI w corpus) ∧
    (pyUpper w ∈ KEEP_UPPER → displayName w = pyUpper w) ∧
    (pyUpper w ∉ KEEP_UPPER → pyCapitalize w ∈ CAP_WORDS →
       displayName w = pyCapitalize w) ∧
    (pyUpper w ∉ KEEP_UPPER → pyCapitalize w ∉ CAP_WORDS → displayName w = w) := by
  refine ⟨?_, fun h1 => ?_, fun h1 h2 => ?_, fun h1 h2 => ?_⟩
  · show dictLookup ([w].foldl (kwStep corpus) []) (displayName w) = _
    rw [List.foldl_cons, List.foldl_nil]
    have hstep : kwStep corpus [] w = dictInsert [] (displayName w) (countCI w corpus) := by
      unfold kwStep
      rw [if_pos h]
    rw [hstep]
    exact dictLookup_insert_self [] (displayName w) (countCI w corpus)
  · unfold displayName
    rw [if_pos h1]
  · unfold displayName
    rw [if_neg h1, if_pos h2]
  · unfold displayName
    rw [if_neg h1, if_neg h2]

/-- Witness for C8's amended statement at the entry "css". -/
theorem c8_witness :
    dictLookup (count_keywords (S "CSS and css") [S "css"]) (displayName (S "css")) =
      some (countCI (S "css") (S "CSS and css")) ∧
    (pyUpper (S "css") ∈ KEEP_UPPER → displayName (S "css") = pyUpper (S "css")) ∧
    (pyUpper (S "css") ∉ KEEP_UPPER → pyCapitalize (S "css") ∈ CAP_WORDS →
       displayName (S "css") = pyCapitalize (S "css")) ∧
    (pyUpper (S "css") ∉ KEEP_UPPER → pyCapitalize (S "css") ∉ CAP_WORDS →
       displayName (S "css") = S "css") :=
  c8_display_rules (S "CSS and css") (S "css") (by decide)

/-- Counterexample to C9: the catalog containing the empty string is
non-empty, yet on the empty corpus the empty pattern matches once
(`re.findall` on two empty strings returns one match) and the mapping is
not empty. -/
theorem c9_counterexample :
    count_keywords [] [([] : List Nat)] = [([], 1)] ∧
    ([([] : List Nat)] : List (List Nat)) ≠ [] := by
  exact ⟨by decide, by decide⟩

/-- C9 (amended): for every catalog of non-empty entries,
`count_keywords` on the empty corpus returns the empty mapping (and in
particular raises no error). -/
theorem c9_empty_corpus (catalog : List (List Nat)) :
    (∀ w ∈ catalog, w ≠ []) → count_keywords [] catalog = [] := by
  induction catalog with
  | nil => intro _; rfl
  | cons w rest ih =>
    intro h
    have hne : ¬ (pyLower w).isEmpty = true := by
      intro hc
      apply h w (List.mem_cons_self w rest)
      have : pyLower w = [] := by
        cases hw : pyLower w with
        | nil => rfl
        | cons a l => rw [hw] at hc; simp [List.isEmpty] at hc
      cases w with
      | nil => rfl
      | cons c l => simp [pyLower] at this
    have hw0 : countCI w [] = 0 := by
      unfold countCI countOcc
      rw [if_neg hne]
      rfl
    have hstep : kwStep [] [] w = [] := by
      unfold kwStep
      rw [hw0]
      rfl
    unfold count_keywords at ih ⊢
    rw [List.foldl_cons, hstep]
    exact ih (fun w' hm => h w' (List.mem_cons_of_mem w hm))

/-- Witness for C9's amended statement on a concrete catalog. -/
theorem c9_witness : count_keywords [] [S "Java", S "C++"] = [] :=
  c9_empty_corpus [S "Java", S "C++"] (by decide)
